import Mathlib

/-!
# Verification of the Image Alchemist client

A shallow embedding, in Lean 4, of the three units of the repository:

* `fileToBase64` (src/utils/fileUtils.ts) — the Encoder;
* `editImageWithPrompt` (src/services/geminiService.ts) — the Edit Client;
* the `App` component state logic (handleImageChange / handleSubmit /
  handleDownload) — the Orchestration layer.

JavaScript strings are Lean `String`s; JavaScript's `split`, `trim`,
`includes` and truthiness tests are embedded explicitly below.  Values a
JavaScript `throw` can carry are either an `Error` with a message or some
other value (`JsThrown`).  Asynchronous calls are embedded by passing the
settled outcome of the awaited promise as an explicit argument.
-/

deriving instance DecidableEq for Except

namespace Alchemist

/-! ## JavaScript string primitives -/

/-- `splitCharList sep l` is the list of `sep`-separated fields of `l`,
embedding JavaScript `String.prototype.split` with a one-character
separator (the result is never empty; an empty input yields `[[]]`). -/
def splitCharList (sep : Char) : List Char → List (List Char)
  | [] => [[]]
  | c :: cs =>
    if c = sep then [] :: splitCharList sep cs
    else
      match splitCharList sep cs with
      | [] => [[c]]
      | g :: gs => (c :: g) :: gs

/-- JavaScript `s.split(sep)` for a one-character separator. -/
def jsSplit (sep : Char) (s : String) : List String :=
  (splitCharList sep s.data).map String.mk

/-- JavaScript `v || dflt` where `v` is a string-indexing result:
`undefined` (`none`) and the empty string are falsy and select `dflt`. -/
def jsOr : Option String → String → String
  | none, dflt => dflt
  | some s, dflt => if s = "" then dflt else s

/-- `leadsWith pat l` : does `l` start with `pat`? -/
def leadsWith : List Char → List Char → Bool
  | [], _ => true
  | _ :: _, [] => false
  | a :: as, b :: bs => a = b && leadsWith as bs

/-- `containsSeq pat l` : does `pat` occur contiguously in `l`? -/
def containsSeq (pat : List Char) : List Char → Bool
  | [] => leadsWith pat []
  | c :: t => leadsWith pat (c :: t) || containsSeq pat t

/-- JavaScript `s.includes(pat)`. -/
def jsIncludes (s pat : String) : Bool :=
  containsSeq pat.data s.data

/-- JavaScript `s.trim()` (leading and trailing whitespace removed). -/
def jsTrim (s : String) : String :=
  ⟨((s.data.dropWhile Char.isWhitespace).reverse.dropWhile
      Char.isWhitespace).reverse⟩

/-! ## The Edit Client (src/services/geminiService.ts) -/

/-- A value carried by a JavaScript `throw`: an `Error` with its `message`,
or any non-`Error` value. -/
inductive JsThrown where
  | error (message : String)
  | other
deriving DecidableEq, Repr

/-- The `inlineData` field of a response part: declared media type and
base64-encoded bytes. -/
structure InlineData where
  mimeType : String
  data : String
deriving DecidableEq, Repr

/-- One content part of a service response; `inlineData` is absent for
text-only parts, `text` is absent for image parts. -/
structure Part where
  inlineData : Option InlineData
  text : Option String
deriving DecidableEq, Repr

/-- The `content` object of a candidate; its `parts` array may be absent. -/
structure Content where
  parts : Option (List Part)
deriving DecidableEq, Repr

/-- One response candidate; its `content` object may be absent. -/
structure Candidate where
  content : Option Content
deriving DecidableEq, Repr

/-- A `generateContent` response: an ordered sequence of candidates. -/
structure GenerateContentResponse where
  candidates : List Candidate
deriving DecidableEq, Repr

/-- Modelled from JavaScript runtime semantics: the message of the
`TypeError` thrown by `response.candidates[0].content` when
`candidates[0]` is `undefined` (empty `candidates`). -/
def typeErrorReadingContent : String :=
  "Cannot read properties of undefined (reading 'content')"

/-- Modelled from JavaScript runtime semantics: the message of the
`TypeError` thrown by `.content.parts` when `content` is `undefined`. -/
def typeErrorReadingParts : String :=
  "Cannot read properties of undefined (reading 'parts')"

/-- Modelled from JavaScript runtime semantics: the message of the
`TypeError` thrown by `for...of` over an `undefined` `parts`. -/
def typeErrorNotIterable : String :=
  "undefined is not iterable (cannot read property Symbol(Symbol.iterator))"

/-- The `for (const part of ...) if (part.inlineData)` scan: the first
part carrying inline data, if any. -/
def findInlineData : List Part → Option InlineData
  | [] => none
  | p :: rest =>
    match p.inlineData with
    | some d => some d
    | none => findInlineData rest

/-- The `try` block of `editImageWithPrompt`, given the settled outcome
`remote` of the awaited `ai.models.generateContent` call: either the
returned data URI, or the value thrown inside the block (the rejection of
the remote call, a `TypeError` from the unguarded
`response.candidates[0].content.parts` access, or the no-image `Error`). -/
def editTryBody :
    Except JsThrown GenerateContentResponse → Except JsThrown String
  | .error e => .error e
  | .ok resp =>
    match resp.candidates.head? with
    | none => .error (.error typeErrorReadingContent)
    | some cand =>
      match cand.content with
      | none => .error (.error typeErrorReadingParts)
      | some co =>
        match co.parts with
        | none => .error (.error typeErrorNotIterable)
        | some ps =>
          match findInlineData ps with
          | some d => .ok ("data:" ++ d.mimeType ++ ";base64," ++ d.data)
          | none =>
            .error (.error "No image data was found in the API response.")

/-- The `catch` block of `editImageWithPrompt`: the message of the `Error`
it rethrows for a given caught value. -/
def rewriteCatchError : JsThrown → String
  | .error msg =>
    if jsIncludes msg "API key not valid" then
      "The provided API key is not valid. Please check your configuration."
    else "Failed to edit image: " ++ msg
  | .other => "An unknown error occurred while communicating with the AI model."

/-- `editImageWithPrompt`, embedded over the settled outcome of the remote
call: resolves with the data URI of the first inline-data part, or rejects
with the message produced by the `catch` block. -/
def editImageWithPrompt (remote : Except JsThrown GenerateContentResponse) :
    Except String String :=
  match editTryBody remote with
  | .ok s => .ok s
  | .error e => .error (rewriteCatchError e)

/-! ## The Encoder (src/utils/fileUtils.ts) -/

/-- `fileToBase64`, embedded over the data-URL string `result` that the
`FileReader`'s `onload` handler observes: `result.split(',')[1]` is
resolved when truthy and the empty-result `Error` is the rejection
otherwise (the `onerror` read-failure path is outside this embedding,
which starts from a completed read). -/
def fileToBase64 (result : String) : Except String String :=
  match (jsSplit ',' result).get? 1 with
  | some t =>
    if t = "" then .error "Failed to convert file to base64: result was empty."
    else .ok t
  | none => .error "Failed to convert file to base64: result was empty."

/-- The base64 alphabet, value 0 to 63 in order. -/
def b64Alphabet : List Char :=
  "ABCDEFGHIJKLMNOPQRSTUVWXYZabcdefghijklmnopqrstuvwxyz0123456789+/".data

/-- The base64 digit for a 6-bit value. -/
def encodeChar (n : Nat) : Char :=
  b64Alphabet.getD n '='

/-- The 6-bit value of a base64 digit. -/
def decodeChar (c : Char) : Nat :=
  b64Alphabet.indexOf c

/-- Modelled from the spec: the base64 encoding of a byte sequence, the
payload part of the browser's `FileReader.readAsDataURL` output (a browser
primitive, not part of the repository's sources).  Three bytes become four
digits; a final one or two bytes are padded with `'='`. -/
def base64EncodeList : List Nat → List Char
  | [] => []
  | [b1] => [encodeChar (b1 / 4), encodeChar (b1 % 4 * 16), '=', '=']
  | [b1, b2] =>
    [encodeChar (b1 / 4), encodeChar (b1 % 4 * 16 + b2 / 16),
     encodeChar (b2 % 16 * 4), '=']
  | b1 :: b2 :: b3 :: rest =>
    encodeChar (b1 / 4) :: encodeChar (b1 % 4 * 16 + b2 / 16) ::
    encodeChar (b2 % 16 * 4 + b3 / 64) :: encodeChar (b3 % 64) ::
    base64EncodeList rest

/-- Modelled from the spec: standard base64 decoding of a digit sequence,
the decoding half of the round-trip property (a browser primitive, not
part of the repository's sources). -/
def base64DecodeList : List Char → List Nat
  | c1 :: c2 :: c3 :: c4 :: rest =>
    if c3 = '=' then
      [decodeChar c1 * 4 + decodeChar c2 / 16]
    else if c4 = '=' then
      [decodeChar c1 * 4 + decodeChar c2 / 16,
       decodeChar c2 % 16 * 16 + decodeChar c3 / 4]
    else
      (decodeChar c1 * 4 + decodeChar c2 / 16) ::
      (decodeChar c2 % 16 * 16 + decodeChar c3 / 4) ::
      (decodeChar c3 % 4 * 64 + decodeChar c4) ::
      base64DecodeList rest
  | _ => []

/-- Modelled from the spec: `FileReader.readAsDataURL` on a file with
declared media type `mime` and content `bytes` yields
`data:<mime>;base64,<payload>` (a browser primitive, not part of the
repository's sources). -/
def readAsDataURL (mime : String) (bytes : List Nat) : String :=
  "data:" ++ mime ++ ";base64," ++ String.mk (base64EncodeList bytes)

/-- The characters after the first `','` of a string (all of them). -/
def afterFirstComma (s : String) : String :=
  ⟨(s.data.dropWhile (fun c => c != ',')).tail⟩

/-- Modelled from the spec: decoding a self-describing data URI — the
base64 decoding of the payload after the first comma (a browser
primitive, not part of the repository's sources). -/
def decodeDataUrl (uri : String) : List Nat :=
  base64DecodeList (afterFirstComma uri).data

/-! ## The Orchestration layer (src/unnamed/part_000, the App component) -/

/-- A selected file as the App sees it: its `name` and declared `type`
(content is read asynchronously, so it enters the model only through the
settled Encoder outcome). -/
structure File where
  name : String
  type : String
deriving DecidableEq, Repr

/-- The App component's six state hooks. -/
structure AppState where
  originalImageFile : Option File
  originalImagePreview : Option String
  editedImage : Option String
  prompt : String
  isLoading : Bool
  error : Option String
deriving DecidableEq, Repr

/-- The initial state of the App's hooks. -/
def initialState : AppState :=
  { originalImageFile := none
    originalImagePreview := none
    editedImage := none
    prompt := ""
    isLoading := false
    error := none }

/-- `handleImageChange`: `file` is `event.target.files?.[0]` and `url` the
object URL the browser mints for it; no file selected leaves the state
unchanged. -/
def handleImageChange (s : AppState) (file : Option File) (url : String) :
    AppState :=
  match file with
  | none => s
  | some f =>
    { s with
      originalImageFile := some f
      originalImagePreview := some url
      editedImage := none
      error := none }

/-- The message `handleSubmit`'s `catch` stores for a caught value. -/
def submitErrorMessage : JsThrown → String
  | .error m => m
  | .other => "An unexpected error occurred."

/-- The synchronous head of `handleSubmit`: the two validation guards,
then the batched `setIsLoading(true)`, `setError(null)`,
`setEditedImage(null)` before the first `await`. -/
def submitStart (s : AppState) : AppState :=
  match s.originalImageFile with
  | none => { s with error := some "Please upload an image first." }
  | some _ =>
    if jsTrim s.prompt = "" then
      { s with error := some "Please enter an editing prompt." }
    else
      { s with isLoading := true, error := none, editedImage := none }

/-- The continuation of `handleSubmit` after its awaits settle with
combined outcome `outcome`: the `setEditedImage(result)` of the `try`, or
the `setError` of the `catch`, batched with the `finally`'s
`setIsLoading(false)`. -/
def submitFinish (s : AppState) (outcome : Except JsThrown String) :
    AppState :=
  match outcome with
  | .ok r => { s with editedImage := some r, isLoading := false }
  | .error e =>
    { s with error := some (submitErrorMessage e), isLoading := false }

/-- One uninterleaved run of `handleSubmit`: the final state, plus whether
`fileToBase64` and `editImageWithPrompt` were invoked. -/
structure SubmitRun where
  final : AppState
  calledEncoder : Bool
  calledClient : Bool
deriving DecidableEq, Repr

/-- `handleSubmit`, embedded over the settled outcomes of its two awaited
calls: `encodeOutcome` for `fileToBase64(originalImageFile)` and
`editOutcome data` for `editImageWithPrompt(data, type, prompt)`. -/
def handleSubmit (s : AppState) (encodeOutcome : Except JsThrown String)
    (editOutcome : String → Except JsThrown String) : SubmitRun :=
  match s.originalImageFile with
  | none =>
    ⟨{ s with error := some "Please upload an image first." }, false, false⟩
  | some _ =>
    if jsTrim s.prompt = "" then
      ⟨{ s with error := some "Please enter an editing prompt." }, false, false⟩
    else
      let sL := { s with isLoading := true, error := none, editedImage := none }
      match encodeOutcome with
      | .error e => ⟨submitFinish sL (.error e), true, false⟩
      | .ok data =>
        match editOutcome data with
        | .error e => ⟨submitFinish sL (.error e), true, true⟩
        | .ok r => ⟨submitFinish sL (.ok r), true, true⟩

/-- `handleDownload`'s extension computation:
`editedImage.split(';')[0].split(':')[1] || 'image/png'`, then
`mimeType.split('/')[1] || 'png'`. -/
def downloadExtension (editedImage : String) : String :=
  let mimeType :=
    jsOr ((jsSplit ':' ((jsSplit ';' editedImage).headD "")).get? 1)
      "image/png"
  jsOr ((jsSplit '/' mimeType).get? 1) "png"

/-- `handleDownload`: the name of the saved file, when a result exists. -/
def downloadFileName (s : AppState) : Option String :=
  s.editedImage.map (fun img => "alchemized-image." ++ downloadExtension img)

/-! ### The App as an event machine

Observable state changes, one React render batch per event.  An
in-flight submission is split into its synchronous head (`submitStartEv`)
and the continuation after its awaits settle (`submitFinishEv`), so other
events can interleave while a request is outstanding. -/

/-- An event the App can process. -/
inductive Event where
  | setPromptEv (p : String)
  | imageChangeEv (file : Option File) (url : String)
  | submitStartEv
  | submitFinishEv (outcome : Except JsThrown String)
  | downloadEv
deriving Repr

/-- The state after processing one event. -/
def applyEvent (s : AppState) : Event → AppState
  | .setPromptEv p => { s with prompt := p }
  | .imageChangeEv file url => handleImageChange s file url
  | .submitStartEv => submitStart s
  | .submitFinishEv outcome => submitFinish s outcome
  | .downloadEv => s

/-- When the UI lets an event fire: the textarea and the Generate button
are `disabled` while `isLoading` (the button also when no file is
selected), and a submission's continuation runs only while one is
outstanding. -/
def permitted (s : AppState) : Event → Prop
  | .setPromptEv _ => s.isLoading = false
  | .imageChangeEv _ _ => True
  | .submitStartEv => s.isLoading = false ∧ s.originalImageFile ≠ none
  | .submitFinishEv _ => s.isLoading = true
  | .downloadEv => True

/-- The states the App can reach from its initial state through permitted
events. -/
inductive Reachable : AppState → Prop
  | init : Reachable initialState
  | step {s : AppState} (e : Event) :
      Reachable s → permitted s e → Reachable (applyEvent s e)

/-! ## Helper lemmas on the string primitives -/

theorem splitCharList_ne_nil (sep : Char) (l : List Char) :
    splitCharList sep l ≠ [] := by
  induction l with
  | nil => simp [splitCharList]
  | cons c cs ih =>
    simp only [splitCharList]
    split
    · simp
    · split
      · simp
      · simp

theorem splitCharList_of_not_mem {sep : Char} {l : List Char} (h : sep ∉ l) :
    splitCharList sep l = [l] := by
  induction l with
  | nil => rfl
  | cons c cs ih =>
    have hc : c ≠ sep := by rintro rfl; exact h (List.mem_cons_self _ _)
    have hcs : sep ∉ cs := fun hm => h (List.mem_cons_of_mem _ hm)
    simp only [splitCharList, if_neg hc, ih hcs]

theorem splitCharList_append {sep : Char} {a : List Char} (b : List Char)
    (h : sep ∉ a) :
    splitCharList sep (a ++ sep :: b) = a :: splitCharList sep b := by
  induction a with
  | nil => simp [splitCharList]
  | cons c cs ih =>
    have hc : c ≠ sep := by rintro rfl; exact h (List.mem_cons_self _ _)
    have hcs : sep ∉ cs := fun hm => h (List.mem_cons_of_mem _ hm)
    simp only [List.cons_append, splitCharList, if_neg hc, List.append_eq, ih hcs]

theorem headD_splitCharList (sep : Char) (l : List Char) :
    (splitCharList sep l).headD [] = l.takeWhile (fun c => c != sep) := by
  induction l with
  | nil => rfl
  | cons c cs ih =>
    by_cases hc : c = sep
    · subst hc
      simp [splitCharList]
    · simp only [splitCharList, if_neg hc]
      obtain ⟨g, gs, hg⟩ := List.exists_cons_of_ne_nil (splitCharList_ne_nil sep cs)
      rw [hg]
      rw [hg] at ih
      simp only [List.headD_cons] at ih
      simp [List.takeWhile_cons, hc, ih]

theorem takeWhile_append_not_mem {sep : Char} {a : List Char} (b : List Char)
    (h : sep ∉ a) :
    (a ++ sep :: b).takeWhile (fun c => c != sep) = a := by
  induction a with
  | nil => simp
  | cons c cs ih =>
    have hc : c ≠ sep := by rintro rfl; exact h (List.mem_cons_self _ _)
    have hcs : sep ∉ cs := fun hm => h (List.mem_cons_of_mem _ hm)
    simp [List.takeWhile_cons, hc, ih hcs]

theorem dropWhile_append_not_mem {sep : Char} {a : List Char} (b : List Char)
    (h : sep ∉ a) :
    (a ++ sep :: b).dropWhile (fun c => c != sep) = sep :: b := by
  induction a with
  | nil => simp
  | cons c cs ih =>
    have hc : c ≠ sep := by rintro rfl; exact h (List.mem_cons_self _ _)
    have hcs : sep ∉ cs := fun hm => h (List.mem_cons_of_mem _ hm)
    simp [List.dropWhile_cons, hc, ih hcs]

theorem jsSplit_get_one {sep : Char} {s : String} {a b : List Char}
    (hs : s.data = a ++ sep :: b) (ha : sep ∉ a) (hb : sep ∉ b) :
    (jsSplit sep s).get? 1 = some ⟨b⟩ := by
  unfold jsSplit
  rw [hs, splitCharList_append b ha, splitCharList_of_not_mem hb]
  rfl

theorem jsSplit_get_one_none {sep : Char} {s : String} (h : sep ∉ s.data) :
    (jsSplit sep s).get? 1 = none := by
  unfold jsSplit
  rw [splitCharList_of_not_mem h]
  rfl

theorem jsSplit_headD {sep : Char} (s : String) :
    (jsSplit sep s).headD "" = ⟨s.data.takeWhile (fun c => c != sep)⟩ := by
  unfold jsSplit
  obtain ⟨g, gs, hg⟩ := List.exists_cons_of_ne_nil (splitCharList_ne_nil sep s.data)
  have := headD_splitCharList sep s.data
  rw [hg] at this ⊢
  simp only [List.headD_cons] at this
  simp [this]

theorem mk_ne_empty {b : List Char} (h : b ≠ []) : (⟨b⟩ : String) ≠ "" := by
  intro hb
  exact h (congrArg String.data hb)

/-! ## Lemmas on the response-part scan -/

theorem findInlineData_eq_none {ps : List Part}
    (h : ∀ p ∈ ps, p.inlineData = none) : findInlineData ps = none := by
  induction ps with
  | nil => rfl
  | cons p rest ih =>
    have hp := h p (List.mem_cons_self _ _)
    simp only [findInlineData, hp]
    exact ih fun q hq => h q (List.mem_cons_of_mem _ hq)

theorem findInlineData_first {pre : List Part} {p : Part} {rest : List Part}
    {d : InlineData} (hpre : ∀ q ∈ pre, q.inlineData = none)
    (hp : p.inlineData = some d) :
    findInlineData (pre ++ p :: rest) = some d := by
  induction pre with
  | nil => simp [findInlineData, hp]
  | cons q qre ih =>
    have hq := hpre q (List.mem_cons_self _ _)
    simp only [List.cons_append, findInlineData, hq]
    exact ih fun r hr => hpre r (List.mem_cons_of_mem _ hr)

/-! ## Claim theorems: the Edit Client -/

/-- C1, counterexample: on a response whose single part is text-only, the
Edit Client does fail, but the error's message is the no-image text
wrapped by the `catch` handler's `Failed to edit image:` template, not the
fixed descriptive text alone — the no-image `throw` sits inside the `try`
block and is re-thrown rewritten. -/
theorem noImage_message_is_wrapped :
    editImageWithPrompt
        (.ok ⟨[⟨some ⟨some [⟨none, some "a stained-glass castle"⟩]⟩⟩]⟩) =
      .error "Failed to edit image: No image data was found in the API response." ∧
    editImageWithPrompt
        (.ok ⟨[⟨some ⟨some [⟨none, some "a stained-glass castle"⟩]⟩⟩]⟩) ≠
      .error "No image data was found in the API response." ∧
    ("Failed to edit image: No image data was found in the API response." : String) ≠
      "No image data was found in the API response." := by
  refine ⟨by decide, by decide, by decide⟩

/-- C1, amended: for every response whose first candidate exposes a parts
sequence none of whose parts carries inline image bytes,
`editImageWithPrompt` fails with the no-image text wrapped by the catch
handler: `Failed to edit image: No image data was found in the API
response.`. -/
theorem editImageWithPrompt_no_image (resp : GenerateContentResponse)
    (cand : Candidate) (co : Content) (ps : List Part)
    (h1 : resp.candidates.head? = some cand) (h2 : cand.content = some co)
    (h3 : co.parts = some ps) (h4 : ∀ p ∈ ps, p.inlineData = none) :
    editImageWithPrompt (.ok resp) =
      .error "Failed to edit image: No image data was found in the API response." := by
  simp only [editImageWithPrompt, editTryBody, h1, h2, h3,
    findInlineData_eq_none h4]
  decide

/-- C1, witness for the amended claim at a concrete text-only response. -/
theorem editImageWithPrompt_no_image_witness :
    editImageWithPrompt (.ok ⟨[⟨some ⟨some [⟨none, some "hello"⟩]⟩⟩]⟩) =
      .error "Failed to edit image: No image data was found in the API response." :=
  editImageWithPrompt_no_image _ ⟨some ⟨some [⟨none, some "hello"⟩]⟩⟩
    ⟨some [⟨none, some "hello"⟩]⟩ [⟨none, some "hello"⟩]
    rfl rfl rfl (by decide)

/-- C4: for every response whose first candidate's parts contain an
inline-data part, the result is the data URI
`data:<mimeType>;base64,<data>` built from the first such part, later
parts being ignored. -/
theorem editImageWithPrompt_first_inline (resp : GenerateContentResponse)
    (cand : Candidate) (co : Content) (ps pre rest : List Part) (p : Part)
    (d : InlineData)
    (h1 : resp.candidates.head? = some cand) (h2 : cand.content = some co)
    (h3 : co.parts = some ps) (h4 : ps = pre ++ p :: rest)
    (h5 : ∀ q ∈ pre, q.inlineData = none) (h6 : p.inlineData = some d) :
    editImageWithPrompt (.ok resp) =
      .ok ("data:" ++ d.mimeType ++ ";base64," ++ d.data) := by
  simp only [editImageWithPrompt, editTryBody, h1, h2, h3, h4,
    findInlineData_first h5 h6]

/-- C4, witness: a text part followed by an `image/png` part with data
`AAAA` (and a trailing inline part that is ignored) yields exactly
`data:image/png;base64,AAAA`. -/
theorem editImageWithPrompt_first_inline_witness :
    editImageWithPrompt
        (.ok ⟨[⟨some ⟨some [⟨none, some "here you go"⟩,
                            ⟨some ⟨"image/png", "AAAA"⟩, none⟩,
                            ⟨some ⟨"image/jpeg", "BBBB"⟩, none⟩]⟩⟩]⟩) =
      .ok "data:image/png;base64,AAAA" :=
  editImageWithPrompt_first_inline _
    ⟨some ⟨some [⟨none, some "here you go"⟩,
                 ⟨some ⟨"image/png", "AAAA"⟩, none⟩,
                 ⟨some ⟨"image/jpeg", "BBBB"⟩, none⟩]⟩⟩
    ⟨some [⟨none, some "here you go"⟩,
           ⟨some ⟨"image/png", "AAAA"⟩, none⟩,
           ⟨some ⟨"image/jpeg", "BBBB"⟩, none⟩]⟩
    [⟨none, some "here you go"⟩,
     ⟨some ⟨"image/png", "AAAA"⟩, none⟩,
     ⟨some ⟨"image/jpeg", "BBBB"⟩, none⟩]
    [⟨none, some "here you go"⟩]
    [⟨some ⟨"image/jpeg", "BBBB"⟩, none⟩]
    ⟨some ⟨"image/png", "AAAA"⟩, none⟩
    ⟨"image/png", "AAAA"⟩
    rfl rfl rfl (by decide) (by decide) rfl

/-- C5: the catch handler's rewriting — an `Error` whose message contains
`API key not valid` becomes the fixed configuration message; any other
`Error` becomes `Failed to edit image: <original message>`; a non-`Error`
throwable becomes the generic unknown-error message. -/
theorem editImageWithPrompt_catch_rewrite :
    (∀ m : String, jsIncludes m "API key not valid" = true →
      editImageWithPrompt (.error (.error m)) =
        .error "The provided API key is not valid. Please check your configuration.") ∧
    (∀ m : String, jsIncludes m "API key not valid" = false →
      editImageWithPrompt (.error (.error m)) =
        .error ("Failed to edit image: " ++ m)) ∧
    editImageWithPrompt (.error .other) =
      .error "An unknown error occurred while communicating with the AI model." := by
  refine ⟨fun m hm => ?_, fun m hm => ?_, rfl⟩
  · simp only [editImageWithPrompt, editTryBody, rewriteCatchError, hm,
      if_true]
  · simp [editImageWithPrompt, editTryBody, rewriteCatchError, hm]

/-- C5, witness: the three rewrites at concrete thrown values. -/
theorem editImageWithPrompt_catch_rewrite_witness :
    editImageWithPrompt
        (.error (.error "API key not valid. Please pass a valid API key.")) =
      .error "The provided API key is not valid. Please check your configuration." ∧
    editImageWithPrompt (.error (.error "fetch failed")) =
      .error ("Failed to edit image: " ++ "fetch failed") := by
  exact ⟨editImageWithPrompt_catch_rewrite.1 _ (by decide),
         editImageWithPrompt_catch_rewrite.2.1 _ (by decide)⟩

/-- C9: on a response with no candidate, the unguarded
`response.candidates[0].content` access faults inside the `try` block, and
the failure is the wrapped `TypeError` message — the generic rewritten
service error — not the no-image message in either its raw or wrapped
form. -/
theorem editImageWithPrompt_empty_candidates :
    (∀ resp : GenerateContentResponse, resp.candidates = [] →
      editImageWithPrompt (.ok resp) =
        .error ("Failed to edit image: " ++ typeErrorReadingContent)) ∧
    (∀ (resp : GenerateContentResponse) (cand : Candidate),
      resp.candidates.head? = some cand → cand.content = none →
      editImageWithPrompt (.ok resp) =
        .error ("Failed to edit image: " ++ typeErrorReadingParts)) ∧
    (∀ (resp : GenerateContentResponse) (cand : Candidate) (co : Content),
      resp.candidates.head? = some cand → cand.content = some co →
      co.parts = none →
      editImageWithPrompt (.ok resp) =
        .error ("Failed to edit image: " ++ typeErrorNotIterable)) ∧
    ("Failed to edit image: " ++ typeErrorReadingContent : String) ≠
      "No image data was found in the API response." ∧
    ("Failed to edit image: " ++ typeErrorReadingContent : String) ≠
      "Failed to edit image: No image data was found in the API response." ∧
    ("Failed to edit image: " ++ typeErrorReadingParts : String) ≠
      "Failed to edit image: No image data was found in the API response." ∧
    ("Failed to edit image: " ++ typeErrorNotIterable : String) ≠
      "Failed to edit image: No image data was found in the API response." := by
  refine ⟨fun resp h => ?_, fun resp cand h1 h2 => ?_,
    fun resp cand co h1 h2 h3 => ?_, by decide, by decide, by decide, by decide⟩
  · simp only [editImageWithPrompt, editTryBody, h]
    decide
  · simp only [editImageWithPrompt, editTryBody, h1, h2]
    decide
  · simp only [editImageWithPrompt, editTryBody, h1, h2, h3]
    decide

/-- C9, witness at the empty-candidates response. -/
theorem editImageWithPrompt_empty_candidates_witness :
    editImageWithPrompt (.ok ⟨[]⟩) =
      .error ("Failed to edit image: " ++ typeErrorReadingContent) :=
  editImageWithPrompt_empty_candidates.1 ⟨[]⟩ rfl

/-! ## Claim theorems: the Encoder -/

theorem fileToBase64_ok_of_split {a b : List Char} (ha : ',' ∉ a)
    (hb : ',' ∉ b) (hbne : b ≠ []) (s : String)
    (hs : s.data = a ++ ',' :: b) :
    fileToBase64 s = .ok ⟨b⟩ := by
  unfold fileToBase64 jsSplit
  rw [hs, splitCharList_append b ha, splitCharList_of_not_mem hb]
  simp only [List.map_cons, List.map_nil, List.get?]
  rw [if_neg (mk_ne_empty hbne)]

theorem fileToBase64_empty_of_split {a : List Char} (ha : ',' ∉ a)
    (s : String) (hs : s.data = a ++ [',']) :
    fileToBase64 s =
      .error "Failed to convert file to base64: result was empty." := by
  unfold fileToBase64 jsSplit
  rw [hs, show a ++ [','] = a ++ ',' :: [] from rfl,
    splitCharList_append [] ha]
  simp [splitCharList]

/-- C3, counterexample: the claim fails on the code in two ways.  On the
read result of a zero-byte file (`data:application/octet-stream;base64,`)
the Encoder rejects instead of resolving with the (empty) substring after
the first comma; and on a read result whose payload itself contains a
comma, everything from the second comma on is dropped, so the resolved
value is not the full substring after the first comma. -/
theorem fileToBase64_claim_counterexample :
    fileToBase64 "data:application/octet-stream;base64," =
      .error "Failed to convert file to base64: result was empty." ∧
    afterFirstComma "data:application/octet-stream;base64," = "" ∧
    fileToBase64 "data:application/octet-stream;base64," ≠
      .ok (afterFirstComma "data:application/octet-stream;base64,") ∧
    fileToBase64 "data:text/plain;base64,QQ==,QQ==" = .ok "QQ==" ∧
    afterFirstComma "data:text/plain;base64,QQ==,QQ==" = "QQ==,QQ==" ∧
    fileToBase64 "data:text/plain;base64,QQ==,QQ==" ≠
      .ok (afterFirstComma "data:text/plain;base64,QQ==,QQ==") := by
  refine ⟨by decide, by decide, by decide, by decide, by decide, by decide⟩

/-- C3, amended: `fileToBase64` resolves with the second comma-separated
field of the read result when that field is nonempty — for a read result
with exactly one comma (the shape `readAsDataURL` produces, since base64
payloads contain no comma) this is exactly the substring after that
comma — and rejects with the empty-result error when the payload after
the first comma is empty. -/
theorem fileToBase64_strips_through_first_comma :
    (∀ a b : String, ',' ∉ a.data → ',' ∉ b.data → b ≠ "" →
      fileToBase64 (a ++ "," ++ b) = .ok b) ∧
    (∀ a : String, ',' ∉ a.data →
      fileToBase64 (a ++ ",") =
        .error "Failed to convert file to base64: result was empty.") := by
  constructor
  · intro a b ha hb hbne
    have hd : (a ++ "," ++ b).data = a.data ++ ',' :: b.data := by
      show (a.data ++ [',']) ++ b.data = _
      simp
    have := fileToBase64_ok_of_split ha hb
      (fun h => hbne (by cases b; simp_all)) (a ++ "," ++ b) hd
    simpa using this
  · intro a ha
    exact fileToBase64_empty_of_split ha (a ++ ",") rfl

/-- C3, witness: the amended claim at a concrete one-comma read result. -/
theorem fileToBase64_strips_witness :
    fileToBase64 ("data:image/png;base64" ++ "," ++ "AAAA") = .ok "AAAA" :=
  fileToBase64_strips_through_first_comma.1 "data:image/png;base64" "AAAA"
    (by decide) (by decide) (by decide)

/-! ## Base64 lemmas and the round-trip property -/

theorem decodeChar_encodeChar : ∀ n, n < 64 → decodeChar (encodeChar n) = n := by
  decide

theorem encodeChar_ne_pad : ∀ n, n < 64 → encodeChar n ≠ '=' := by
  decide

theorem encodeChar_ne_comma (n : Nat) : encodeChar n ≠ ',' := by
  by_cases h : n < 64
  · exact (by decide : ∀ m, m < 64 → encodeChar m ≠ ',') n h
  · unfold encodeChar
    rw [List.getD_eq_default]
    · decide
    · have : b64Alphabet.length = 64 := by decide
      omega

theorem base64_roundtrip : ∀ bs : List Nat, (∀ b ∈ bs, b < 256) →
    base64DecodeList (base64EncodeList bs) = bs
  | [], _ => rfl
  | [b1], h => by
    have h1 : b1 < 256 := h b1 (by simp)
    simp only [base64EncodeList, base64DecodeList, if_true]
    rw [decodeChar_encodeChar _ (by omega), decodeChar_encodeChar _ (by omega)]
    simp only [List.cons.injEq, and_true]
    omega
  | [b1, b2], h => by
    have h1 : b1 < 256 := h b1 (by simp)
    have h2 : b2 < 256 := h b2 (by simp)
    simp only [base64EncodeList, base64DecodeList]
    rw [if_neg (encodeChar_ne_pad _ (by omega))]
    simp only [if_true]
    rw [decodeChar_encodeChar _ (by omega), decodeChar_encodeChar _ (by omega),
      decodeChar_encodeChar _ (by omega)]
    simp only [List.cons.injEq, and_true]
    omega
  | b1 :: b2 :: b3 :: rest, h => by
    have h1 : b1 < 256 := h b1 (by simp)
    have h2 : b2 < 256 := h b2 (by simp)
    have h3 : b3 < 256 := h b3 (by simp)
    have hrest : ∀ b ∈ rest, b < 256 := fun b hb => h b (by simp [hb])
    simp only [base64EncodeList, base64DecodeList]
    rw [if_neg (encodeChar_ne_pad _ (by omega)),
      if_neg (encodeChar_ne_pad _ (by omega))]
    rw [decodeChar_encodeChar _ (by omega), decodeChar_encodeChar _ (by omega),
      decodeChar_encodeChar _ (by omega), decodeChar_encodeChar _ (by omega)]
    rw [base64_roundtrip rest hrest]
    simp only [List.cons.injEq, and_true]
    refine ⟨by omega, by omega, by omega⟩

theorem comma_not_mem_base64Encode : ∀ bs : List Nat,
    ',' ∉ base64EncodeList bs
  | [] => by simp [base64EncodeList]
  | [b1] => by
    intro hmem
    simp only [base64EncodeList, List.mem_cons, List.not_mem_nil,
      or_false] at hmem
    rcases hmem with h | h | h | h
    · exact encodeChar_ne_comma _ h.symm
    · exact encodeChar_ne_comma _ h.symm
    · exact absurd h (by decide)
    · exact absurd h (by decide)
  | [b1, b2] => by
    intro hmem
    simp only [base64EncodeList, List.mem_cons, List.not_mem_nil,
      or_false] at hmem
    rcases hmem with h | h | h | h
    · exact encodeChar_ne_comma _ h.symm
    · exact encodeChar_ne_comma _ h.symm
    · exact encodeChar_ne_comma _ h.symm
    · exact absurd h (by decide)
  | b1 :: b2 :: b3 :: rest => by
    intro hmem
    simp only [base64EncodeList, List.mem_cons] at hmem
    rcases hmem with h | h | h | h | h
    · exact encodeChar_ne_comma _ h.symm
    · exact encodeChar_ne_comma _ h.symm
    · exact encodeChar_ne_comma _ h.symm
    · exact encodeChar_ne_comma _ h.symm
    · exact comma_not_mem_base64Encode rest h

theorem base64Encode_ne_nil : ∀ bs : List Nat, bs ≠ [] →
    base64EncodeList bs ≠ []
  | [], h => absurd rfl h
  | [_], _ => by simp [base64EncodeList]
  | [_, _], _ => by simp [base64EncodeList]
  | _ :: _ :: _ :: _, _ => by simp [base64EncodeList]

/-- C7: for every non-empty file (comma-free declared media type, byte
contents), the Encoder's output, re-assembled into a data URI with the
original media type, decodes back to content byte-identical to the input
file. -/
theorem encoder_decode_roundtrip (mime : String) (bytes : List Nat)
    (out : String) (hm : ',' ∉ mime.data) (hne : bytes ≠ [])
    (hb : ∀ b ∈ bytes, b < 256)
    (hout : fileToBase64 (readAsDataURL mime bytes) = .ok out) :
    decodeDataUrl ("data:" ++ mime ++ ";base64," ++ out) = bytes := by
  have hdata : (readAsDataURL mime bytes).data =
      ("data:".data ++ mime.data ++ (";base64" : String).data) ++ ',' ::
        base64EncodeList bytes := by
    show (("data:".data ++ mime.data) ++ (";base64," : String).data) ++
        base64EncodeList bytes = _
    simp [List.append_assoc]
  have hA : ',' ∉ "data:".data ++ mime.data ++ (";base64" : String).data := by
    simp only [List.mem_append, not_or]
    exact ⟨⟨by decide, hm⟩, by decide⟩
  have hok : fileToBase64 (readAsDataURL mime bytes) =
      .ok ⟨base64EncodeList bytes⟩ :=
    fileToBase64_ok_of_split hA (comma_not_mem_base64Encode bytes)
      (base64Encode_ne_nil bytes hne) _ hdata
  have hout2 : out = ⟨base64EncodeList bytes⟩ :=
    (Except.ok.inj (hout.symm.trans hok))
  subst hout2
  show base64DecodeList (afterFirstComma (readAsDataURL mime bytes)).data =
    bytes
  unfold afterFirstComma
  rw [hdata, dropWhile_append_not_mem _ hA]
  exact base64_roundtrip bytes hb

/-- C7, witness: the bytes `[1, 2, 254]` of an `image/png` file encode to
`AQL+`, and the re-assembled URI decodes back to `[1, 2, 254]`. -/
theorem encoder_decode_roundtrip_witness :
    decodeDataUrl ("data:" ++ "image/png" ++ ";base64," ++ "AQL+") =
      [1, 2, 254] :=
  encoder_decode_roundtrip "image/png" [1, 2, 254] "AQL+" (by decide)
    (by decide) (by decide) (by decide)

/-! ## Claim theorems: the Orchestration layer -/

theorem ne_empty_data {s : String} (h : s ≠ "") : s.data ≠ [] :=
  fun hd => h (congrArg String.mk hd)

/-- C8: the download action derives the saved extension as the subtype of
the result URI's declared `type/subtype` media type, and falls back to
`png` when the media-type segment is missing or has no `/`-separated
subtype. -/
theorem downloadExtension_spec :
    (∀ ty sub rest : String,
      ';' ∉ ty.data → ';' ∉ sub.data → ':' ∉ ty.data → ':' ∉ sub.data →
      '/' ∉ ty.data → '/' ∉ sub.data → sub ≠ "" →
      downloadExtension ("data:" ++ ty ++ "/" ++ sub ++ ";" ++ rest) = sub) ∧
    (∀ m rest : String, ';' ∉ m.data → ':' ∉ m.data → '/' ∉ m.data →
      downloadExtension ("data:" ++ m ++ ";" ++ rest) = "png") := by
  constructor
  · intro ty sub rest h1 h2 h3 h4 h5 h6 h7
    have hu : ("data:" ++ ty ++ "/" ++ sub ++ ";" ++ rest).data =
        ("data:".data ++ ty.data ++ '/' :: sub.data) ++ ';' :: rest.data := by
      show (((("data:".data ++ ty.data) ++ ("/" : String).data) ++ sub.data)
          ++ (";" : String).data) ++ rest.data = _
      simp [List.append_assoc]
    have hA : ';' ∉ "data:".data ++ ty.data ++ '/' :: sub.data := by
      intro hm
      simp only [List.mem_append, List.mem_cons] at hm
      rcases hm with (hm | hm) | (hm | hm)
      · exact absurd hm (by decide)
      · exact h1 hm
      · exact absurd hm (by decide)
      · exact h2 hm
    have hB : ':' ∉ ty.data ++ '/' :: sub.data := by
      intro hm
      simp only [List.mem_append, List.mem_cons] at hm
      rcases hm with hm | (hm | hm)
      · exact h3 hm
      · exact absurd hm (by decide)
      · exact h4 hm
    have hmkA : (⟨"data:".data ++ ty.data ++ '/' :: sub.data⟩ : String).data =
        ['d', 'a', 't', 'a'] ++ ':' :: (ty.data ++ '/' :: sub.data) := by
      simp
    have hmkB : (⟨ty.data ++ '/' :: sub.data⟩ : String).data =
        ty.data ++ '/' :: sub.data := rfl
    simp only [downloadExtension]
    rw [jsSplit_headD, hu, takeWhile_append_not_mem _ hA,
      jsSplit_get_one hmkA (by decide) hB]
    simp only [jsOr]
    rw [if_neg (mk_ne_empty (by simp))]
    rw [jsSplit_get_one hmkB h5 h6]
    simp only [jsOr]
    rw [if_neg (mk_ne_empty (ne_empty_data h7))]
  · intro m rest h1 h2 h3
    by_cases hm : m = ""
    · subst hm
      have hu : ("data:" ++ "" ++ ";" ++ rest).data =
          "data:".data ++ ';' :: rest.data := by
        show (("data:".data ++ ([] : List Char)) ++ (";" : String).data)
            ++ rest.data = _
        simp
      have hlit : ';' ∉ ("data:" : String).data := by decide
      simp only [downloadExtension]
      rw [jsSplit_headD, hu, takeWhile_append_not_mem _ hlit]
      decide
    · have hu : ("data:" ++ m ++ ";" ++ rest).data =
          ("data:".data ++ m.data) ++ ';' :: rest.data := by
        show (("data:".data ++ m.data) ++ (";" : String).data) ++ rest.data = _
        simp [List.append_assoc]
      have hA : ';' ∉ "data:".data ++ m.data := by
        intro hmem
        simp only [List.mem_append] at hmem
        rcases hmem with hmem | hmem
        · exact absurd hmem (by decide)
        · exact h1 hmem
      have hmkA : (⟨"data:".data ++ m.data⟩ : String).data =
          ['d', 'a', 't', 'a'] ++ ':' :: m.data := by
        simp
      simp only [downloadExtension]
      rw [jsSplit_headD, hu, takeWhile_append_not_mem _ hA,
        jsSplit_get_one hmkA (by decide) h2]
      simp only [jsOr]
      rw [if_neg (mk_ne_empty (ne_empty_data hm))]
      rw [show (⟨m.data⟩ : String) = m from rfl, jsSplit_get_one_none h3]

/-- C8, witness: `image/jpeg` yields extension `jpeg`; a URI with an
empty media-type segment falls back to `png`. -/
theorem downloadExtension_spec_witness :
    downloadExtension ("data:" ++ "image" ++ "/" ++ "jpeg" ++ ";" ++
        "base64,AAAA") = "jpeg" ∧
    downloadExtension ("data:" ++ "" ++ ";" ++ "base64,AAAA") = "png" :=
  ⟨downloadExtension_spec.1 "image" "jpeg" "base64,AAAA" (by decide)
      (by decide) (by decide) (by decide) (by decide) (by decide) (by decide),
   downloadExtension_spec.2 "" "base64,AAAA" (by decide) (by decide)
      (by decide)⟩

/-- C6: a submission triggered with no file selected, or with a
blank/whitespace-only prompt, invokes neither the Encoder nor the Edit
Client, stores the corresponding validation error message before any
asynchronous work, and leaves every other piece of session state (result,
preview, file, prompt, in-flight flag) unchanged. -/
theorem handleSubmit_validation (s : AppState)
    (enc : Except JsThrown String) (editF : String → Except JsThrown String)
    (h : s.originalImageFile = none ∨ jsTrim s.prompt = "") :
    (handleSubmit s enc editF).calledEncoder = false ∧
    (handleSubmit s enc editF).calledClient = false ∧
    (handleSubmit s enc editF).final.error =
      some (if s.originalImageFile = none then "Please upload an image first."
            else "Please enter an editing prompt.") ∧
    (handleSubmit s enc editF).final.editedImage = s.editedImage ∧
    (handleSubmit s enc editF).final.originalImagePreview =
      s.originalImagePreview ∧
    (handleSubmit s enc editF).final.originalImageFile =
      s.originalImageFile ∧
    (handleSubmit s enc editF).final.prompt = s.prompt ∧
    (handleSubmit s enc editF).final.isLoading = s.isLoading := by
  rcases hf : s.originalImageFile with _ | f
  · simp [handleSubmit, hf]
  · rcases h with h | h
    · rw [hf] at h; exact absurd h (by simp)
    · simp [handleSubmit, hf, h]

/-- C6, witness: submitting the initial state (no file selected). -/
theorem handleSubmit_validation_witness :
    (handleSubmit initialState (.error .other)
        (fun _ => .error .other)).calledEncoder = false ∧
    (handleSubmit initialState (.error .other)
        (fun _ => .error .other)).calledClient = false ∧
    (handleSubmit initialState (.error .other)
        (fun _ => .error .other)).final.error =
      some "Please upload an image first." :=
  have h := handleSubmit_validation initialState (.error .other)
    (fun _ => .error .other) (Or.inl rfl)
  ⟨h.1, h.2.1, h.2.2.1⟩

/-- C2, counterexample: a state holding a prior successful result submits
again and the Encoder fails; no new file was selected in between, yet the
stored result after the failed submission is `null`, not the prior
result — `handleSubmit` clears it at submission start. -/
theorem failure_clears_prior_result :
    (handleSubmit
        ⟨some ⟨"a.png", "image/png"⟩, some "blob:1",
         some "data:image/png;base64,OLD", "make it glow", false, none⟩
        (.error (.error "File could not be read: event"))
        (fun _ => .error .other)).final.editedImage = none ∧
    (⟨some ⟨"a.png", "image/png"⟩, some "blob:1",
      some "data:image/png;base64,OLD", "make it glow", false,
      none⟩ : AppState).editedImage = some "data:image/png;base64,OLD" ∧
    (handleSubmit
        ⟨some ⟨"a.png", "image/png"⟩, some "blob:1",
         some "data:image/png;base64,OLD", "make it glow", false, none⟩
        (.error (.error "File could not be read: event"))
        (fun _ => .error .other)).final.editedImage ≠
      (⟨some ⟨"a.png", "image/png"⟩, some "blob:1",
        some "data:image/png;base64,OLD", "make it glow", false,
        none⟩ : AppState).editedImage := by
  refine ⟨by decide, by decide, by decide⟩

/-- C2, amended: after a submission that passes validation and then fails
in the Encoder or the Edit Client (with no interleaved events), the
stored result image is `null` — the submission start cleared any prior
result and the failure handling does not restore it; beyond that, the
failure path only stores an error message and clears the in-flight flag,
leaving file, preview and prompt unchanged. -/
theorem handleSubmit_failure (s : AppState) (f : File)
    (enc : Except JsThrown String) (editF : String → Except JsThrown String)
    (hf : s.originalImageFile = some f) (hp : jsTrim s.prompt ≠ "")
    (hfail : (∃ e, enc = .error e) ∨
      (∃ d e, enc = .ok d ∧ editF d = .error e)) :
    (handleSubmit s enc editF).final.editedImage = none ∧
    (handleSubmit s enc editF).final.isLoading = false ∧
    (∃ m, (handleSubmit s enc editF).final.error = some m) ∧
    (handleSubmit s enc editF).final.originalImageFile =
      s.originalImageFile ∧
    (handleSubmit s enc editF).final.originalImagePreview =
      s.originalImagePreview ∧
    (handleSubmit s enc editF).final.prompt = s.prompt := by
  rcases hfail with ⟨e, he⟩ | ⟨d, e, hd, he⟩
  · simp [handleSubmit, hf, hp, he, submitFinish]
  · simp [handleSubmit, hf, hp, hd, he, submitFinish]

/-- C2, witness for the amended claim: the counterexample's state and
failing Encoder outcome. -/
theorem handleSubmit_failure_witness :
    (handleSubmit
        ⟨some ⟨"a.png", "image/png"⟩, some "blob:1",
         some "data:image/png;base64,OLD", "make it glow", false, none⟩
        (.error (.error "File could not be read: event"))
        (fun _ => .error .other)).final.editedImage = none ∧
    (handleSubmit
        ⟨some ⟨"a.png", "image/png"⟩, some "blob:1",
         some "data:image/png;base64,OLD", "make it glow", false, none⟩
        (.error (.error "File could not be read: event"))
        (fun _ => .error .other)).final.isLoading = false :=
  have h := handleSubmit_failure
    ⟨some ⟨"a.png", "image/png"⟩, some "blob:1",
     some "data:image/png;base64,OLD", "make it glow", false, none⟩
    ⟨"a.png", "image/png"⟩
    (.error (.error "File could not be read: event"))
    (fun _ => .error .other) rfl (by decide)
    (Or.inl ⟨.error "File could not be read: event", rfl⟩)
  ⟨h.1, h.2.1⟩

/-- C10: in every reachable state with the in-flight flag set, the result
image and the error message are both `null`: starting a submission sets
the flag in the same render batch that clears both, and a result or error
is only stored in the batch that clears the flag. -/
theorem loading_invariant (s : AppState) (hr : Reachable s)
    (hl : s.isLoading = true) : s.editedImage = none ∧ s.error = none := by
  induction hr with
  | init => exact absurd hl (by decide)
  | @step s e hr hp ih =>
    cases e with
    | setPromptEv p =>
      simp only [applyEvent] at hl ⊢
      rw [permitted] at hp
      simp [hp] at hl
    | imageChangeEv file url =>
      rcases file with _ | f
      · exact ih hl
      · simp [applyEvent, handleImageChange] at hl ⊢
    | submitStartEv =>
      rw [permitted] at hp
      rcases hfile : s.originalImageFile with _ | f
      · exact absurd hfile hp.2
      · by_cases hpr : jsTrim s.prompt = ""
        · simp [applyEvent, submitStart, hfile, hpr, hp.1] at hl
        · simp [applyEvent, submitStart, hfile, hpr]
    | submitFinishEv outcome =>
      rcases outcome with e | r
      · simp [applyEvent, submitFinish] at hl
      · simp [applyEvent, submitFinish] at hl
    | downloadEv => exact ih hl

/-- C10, witness: a concrete reachable in-flight state (prompt typed, file
selected, submission started). -/
theorem loading_invariant_witness :
    (applyEvent (applyEvent (applyEvent initialState
        (.setPromptEv "make it glow"))
        (.imageChangeEv (some ⟨"a.png", "image/png"⟩) "blob:1"))
        .submitStartEv).editedImage = none ∧
    (applyEvent (applyEvent (applyEvent initialState
        (.setPromptEv "make it glow"))
        (.imageChangeEv (some ⟨"a.png", "image/png"⟩) "blob:1"))
        .submitStartEv).error = none :=
  loading_invariant _
    (Reachable.step .submitStartEv
      (Reachable.step (.imageChangeEv (some ⟨"a.png", "image/png"⟩) "blob:1")
        (Reachable.step (.setPromptEv "make it glow") Reachable.init rfl)
        trivial)
      ⟨rfl, by decide⟩)
    (by decide)

end Alchemist
